import Mathlib

/-!
Shallow embedding of `layout/xul/base/src/grid/nsGridRowGroupLayout.cpp`.

A `Box` models an `nsIBox` node as seen by this layout core:
* `boxId` gives the node an identity (used to record `MarkDirty` effects);
* `scrolled = none` means the box is not a scrollable frame;
  `scrolled = some inner` means `do_QueryInterface<nsIScrollableFrame>`
  succeeds and `GetScrolledFrame` reports `inner` (which is `none` when the
  scroll frame has no scrolled child — the defensive-assertion case);
* `layout = none` models `GetLayoutManager` returning null,
  `layout = some b` a layout manager whose `nsIGridPart` query succeeds
  iff `b = true` (i.e. the unwrapped child is a monument iff `b = true`);
* `children` is the ordered child list walked via `GetChildBox`/`GetNextBox`.

Monument children are modelled as nested row groups: the only grid part in
the translated source is `nsGridRowGroupLayout` itself, so the virtual
`monument->CountRowsColumns` / `BuildRows` / `DirtyRows` calls recurse into
the same traversal applied to the unwrapped child.

A traversal returning `none` models the execution that dereferences a null
unwrapped child (`deepChild->GetLayoutManager` with `deepChild == nsnull`):
the C++ code has no defined result there, so the model produces no result.
-/

inductive Box : Type where
  | mk (boxId : Nat) (scrolled : Option (Option Box)) (layout : Option Bool)
      (children : List Box)

def Box.boxId : Box → Nat
  | .mk i _ _ _ => i

def Box.scrolled : Box → Option (Option Box)
  | .mk _ s _ _ => s

def Box.layout : Box → Option Bool
  | .mk _ _ l _ => l

def Box.children : Box → List Box
  | .mk _ _ _ c => c

/-- `nsGridRowGroupLayout::CheckForScrollFrame` (lines 186-200): if the child
is a scrollable frame, return its scrolled box (possibly null, after the
diagnostic-only `NS_ASSERTION`); otherwise return the child itself. -/
def CheckForScrollFrame (aChild : Box) : Option Box :=
  match aChild.scrolled with
  | some scrolledFrame => scrolledFrame
  | none => some aChild

/-- A child's layout manager is a monument iff `GetLayoutManager` returns a
layout (`if (layout)`) whose `nsIGridPart` interface query succeeds. -/
def isMonument (aBox : Box) : Bool :=
  match aBox.layout with
  | some m => m
  | none => false

/-- The child-walking loop of `nsGridRowGroupLayout::CountRowsColumns`
(lines 239-268): for each child, unwrap scroll frames; a null unwrapped
child is dereferenced (modelled as `none`); a monument recurses with the
same running in/out counters (`monument->CountRowsColumns(deepChild,
aRowCount, aComputedColumnCount)`, whose body is this same loop over
`deepChild.children`); a non-monument counts as one bogus row
(`aRowCount++`). -/
def countChildren : List Box → Int → Int → Option (Int × Int)
  | [], aRowCount, aComputedColumnCount => some (aRowCount, aComputedColumnCount)
  | child :: rest, aRowCount, aComputedColumnCount =>
    match h : CheckForScrollFrame child with
    | none => none
    | some deepChild =>
      if isMonument deepChild then
        match countChildren deepChild.children aRowCount aComputedColumnCount with
        | none => none
        | some (r, c) => countChildren rest r c
      else
        countChildren rest (aRowCount + 1) aComputedColumnCount
termination_by l _ _ => sizeOf l
decreasing_by
· have h1 : sizeOf deepChild ≤ sizeOf child := by
    rcases child with ⟨i, s, l, ch⟩
    rcases s with _ | inner
    · simp [CheckForScrollFrame, Box.scrolled] at h
      subst h
      exact le_refl _
    · simp [CheckForScrollFrame, Box.scrolled] at h
      subst h
      simp
      omega
  have h2 : sizeOf deepChild.children < sizeOf deepChild := by
    rcases deepChild with ⟨i, s, l, ch⟩
    simp [Box.children]
  simp
  omega
· simp
· simp

/-- `nsGridRowGroupLayout::CountRowsColumns` (lines 236-271): a null box is
a no-op leaving the in/out counters unchanged; otherwise walk the children. -/
def CountRowsColumns (aBox : Option Box) (aRowCount aComputedColumnCount : Int) :
    Option (Int × Int) :=
  match aBox with
  | none => some (aRowCount, aComputedColumnCount)
  | some box => countChildren box.children aRowCount aComputedColumnCount

/-- Modelled from the spec: the row descriptor (`nsGridRow`, defined outside
`src/`); `nsGridRow::Init(aBox, aIsBogus)` records the referenced box and
the generated/bogus mark. -/
structure nsGridRow where
  box : Box
  isBogus : Bool

/-- The child-walking loop of `nsGridRowGroupLayout::BuildRows`
(lines 279-311): a monument writes its own rows into the buffer tail at the
current write offset (`monument->BuildRows(deepChild, &aRows[rowCount],
&count)`, this same loop over `deepChild.children`) and advances `rowCount`
by the reported `count`; a non-monument writes one descriptor
`aRows[rowCount].Init(child, PR_TRUE)` — referencing the original,
non-unwrapped `child` — and advances by one.  The result is the sequence of
descriptors written (in buffer order) paired with the final `rowCount`. -/
def buildChildren : List Box → Option (List nsGridRow × Int)
  | [] => some ([], 0)
  | child :: rest =>
    match h : CheckForScrollFrame child with
    | none => none
    | some deepChild =>
      if isMonument deepChild then
        match buildChildren deepChild.children with
        | none => none
        | some (rows, count) =>
          match buildChildren rest with
          | none => none
          | some (restRows, restCount) => some (rows ++ restRows, count + restCount)
      else
        match buildChildren rest with
        | none => none
        | some (restRows, restCount) =>
          some ({ box := child, isBogus := true } :: restRows, 1 + restCount)
termination_by l => sizeOf l
decreasing_by
· have h1 : sizeOf deepChild ≤ sizeOf child := by
    rcases child with ⟨i, s, l, ch⟩
    rcases s with _ | inner
    · simp [CheckForScrollFrame, Box.scrolled] at h
      subst h
      exact le_refl _
    · simp [CheckForScrollFrame, Box.scrolled] at h
      subst h
      simp
      omega
  have h2 : sizeOf deepChild.children < sizeOf deepChild := by
    rcases deepChild with ⟨i, s, l, ch⟩
    simp [Box.children]
  simp
  omega
· simp
· simp

/-- `nsGridRowGroupLayout::BuildRows` (lines 274-316): for a null box the
loop is skipped and `*aCount` receives the initial `rowCount = 0` with no
buffer slot touched; otherwise walk the children. -/
def BuildRows (aBox : Option Box) : Option (List nsGridRow × Int) :=
  match aBox with
  | none => some ([], 0)
  | some box => buildChildren box.children

/-- The child-walking loop of `nsGridRowGroupLayout::DirtyRows`
(lines 213-229): unwrap scroll frames; a monument forwards
`monument->DirtyRows(deepChild, aState)` (which marks `deepChild` dirty and
runs this same loop over `deepChild.children`); a non-monument child is
skipped — the loop does not touch its dirty flag.  The result is the list
of `MarkDirty` targets in call order. -/
def dirtyChildren : List Box → Option (List Nat)
  | [] => some []
  | child :: rest =>
    match h : CheckForScrollFrame child with
    | none => none
    | some deepChild =>
      if isMonument deepChild then
        match dirtyChildren deepChild.children with
        | none => none
        | some marks =>
          match dirtyChildren rest with
          | none => none
          | some more => some ((deepChild.boxId :: marks) ++ more)
      else
        dirtyChildren rest
termination_by l => sizeOf l
decreasing_by
· have h1 : sizeOf deepChild ≤ sizeOf child := by
    rcases child with ⟨i, s, l, ch⟩
    rcases s with _ | inner
    · simp [CheckForScrollFrame, Box.scrolled] at h
      subst h
      exact le_refl _
    · simp [CheckForScrollFrame, Box.scrolled] at h
      subst h
      simp
      omega
  have h2 : sizeOf deepChild.children < sizeOf deepChild := by
    rcases deepChild with ⟨i, s, l, ch⟩
    simp [Box.children]
  simp
  omega
· simp
· simp

/-- `nsGridRowGroupLayout::DirtyRows` (lines 202-233): for a non-null box,
mark it dirty (`aBox->MarkDirty(aState)`) and then walk the children,
forwarding into monuments; a null box is a no-op.  Returns the ordered list
of boxes marked dirty. -/
def DirtyRows (aBox : Option Box) : Option (List Nat) :=
  match aBox with
  | none => some []
  | some box => (dirtyChildren box.children).map (fun marks => box.boxId :: marks)

/-- Modelled from the spec: the "unconstrained/intrinsic" sentinel
`NS_INTRINSICSIZE` (an `nscoord` value defined in headers outside `src/`;
the largest signed 32-bit coordinate). -/
def NS_INTRINSICSIZE : Int := 2147483647

/-- One geometric size, `nsSize` (`width`/`height` are `nscoord`). -/
structure nsSize where
  width : Int
  height : Int
deriving DecidableEq

/-- Modelled from the spec: the `GET_WIDTH(size, isHorizontal)` macro from
`nsGrid.h` (outside `src/`), selecting the dimension on the given axis. -/
def GET_WIDTH (aSize : nsSize) (aIsHorizontal : Bool) : Int :=
  if aIsHorizontal then aSize.width else aSize.height

/-- Writing through the `nscoord&` reference obtained via `GET_WIDTH`. -/
def setWidth (aSize : nsSize) (v : Int) (aIsHorizontal : Bool) : nsSize :=
  if aIsHorizontal then { aSize with width := v } else { aSize with height := v }

/-- `nsGridRowGroupLayout::AddWidth` (lines 85-94): fold `aSize2` into the
`aIsRow` dimension of `aSize`; the sentinel dominates, otherwise add. -/
def AddWidth (aSize : nsSize) (aSize2 : Int) (aIsRow : Bool) : nsSize :=
  if GET_WIDTH aSize aIsRow = NS_INTRINSICSIZE ∨ aSize2 = NS_INTRINSICSIZE then
    setWidth aSize NS_INTRINSICSIZE aIsRow
  else
    setWidth aSize (GET_WIDTH aSize aIsRow + aSize2) aIsRow

/-- The external shared grid (`nsGrid`, outside `src/`), as consumed by this
core: per-axis column counts and per-index size accessors of each kind
(`GetPrefRowHeight` / `GetMaxRowHeight` / `GetMinRowHeight`, queried along
an axis). -/
structure nsGrid where
  columnCount : Bool → Int
  extraColumnCount : Bool → Int
  prefRowHeight : Int → Bool → Int
  maxRowHeight : Int → Bool → Int
  minRowHeight : Int → Bool → Int

/-- `nsGridRowGroupLayout::GetPrefSize` (lines 96-122).  The baseline call
`nsGridRowLayout::GetPrefSize` (outside `src/`) is modelled by its result:
the status `rv` and the in/out size `aSize`; `GetGrid`'s resolution is the
`grid` argument and `IsHorizontal(aBox)` is `isRow`.  With a grid, fold the
extra columns' preferred sizes (queried on the opposite axis, `!isRow`)
into the size; the unused `GetColumnAt` lookup of the source has no effect
and is omitted.  Returns `(rv, size)`. -/
def GetPrefSize (rv : Int) (grid : Option nsGrid) (isRow : Bool) (aSize : nsSize) :
    Int × nsSize :=
  match grid with
  | none => (rv, aSize)
  | some g =>
    let extraColumns := g.extraColumnCount isRow
    let start := g.columnCount isRow - g.extraColumnCount isRow
    (rv, (List.range extraColumns.toNat).foldl
      (fun acc i => AddWidth acc (g.prefRowHeight (Int.ofNat i + start) (!isRow)) isRow)
      aSize)

/-- `nsGridRowGroupLayout::GetMaxSize` (lines 124-150), same shape as
`GetPrefSize` with the max-size accessor. -/
def GetMaxSize (rv : Int) (grid : Option nsGrid) (isRow : Bool) (aSize : nsSize) :
    Int × nsSize :=
  match grid with
  | none => (rv, aSize)
  | some g =>
    let extraColumns := g.extraColumnCount isRow
    let start := g.columnCount isRow - g.extraColumnCount isRow
    (rv, (List.range extraColumns.toNat).foldl
      (fun acc i => AddWidth acc (g.maxRowHeight (Int.ofNat i + start) (!isRow)) isRow)
      aSize)

/-- `nsGridRowGroupLayout::GetMinSize` (lines 152-178), same shape as
`GetPrefSize` with the min-size accessor. -/
def GetMinSize (rv : Int) (grid : Option nsGrid) (isRow : Bool) (aSize : nsSize) :
    Int × nsSize :=
  match grid with
  | none => (rv, aSize)
  | some g =>
    let extraColumns := g.extraColumnCount isRow
    let start := g.columnCount isRow - g.extraColumnCount isRow
    (rv, (List.range extraColumns.toNat).foldl
      (fun acc i => AddWidth acc (g.minRowHeight (Int.ofNat i + start) (!isRow)) isRow)
      aSize)

/-- The row/column-changed notification this core sends to the grid
(`grid->RowAddedOrRemoved(aState, index, isRow)`, an external `nsGrid`
method modelled by the message it receives). -/
structure RowChanged where
  index : Int
  isRow : Bool
deriving DecidableEq

/-- The uniform success status `NS_OK`. -/
def NS_OK : Int := 0

/-- `nsGridRowGroupLayout::ChildAddedOrRemoved` (lines 71-83): resolve the
grid and this box's index (`GetGrid`, external — modelled by its results
`grid` and `index`) and the orientation (`IsHorizontal(aBox)`, modelled by
`isRow`); when a grid is present, notify it of the row/column change at
`index`; always return `NS_OK`. -/
def ChildAddedOrRemoved (grid : Option nsGrid) (index : Int) (isRow : Bool) :
    Option RowChanged × Int :=
  match grid with
  | some _ => (some { index := index, isRow := isRow }, NS_OK)
  | none => (none, NS_OK)

/-- Written from the spec's words (4.3): the rows one direct child
contributes to the flattened output — nothing obtainable when the scroll
frame unwrap yields no box; a monument contributes its own recursively
built rows; any other child contributes exactly one descriptor referencing
the original (non-unwrapped) child, marked generated/bogus. -/
def specRowContrib (child : Box) : Option (List nsGridRow) :=
  match CheckForScrollFrame child with
  | none => none
  | some deep =>
    if isMonument deep then (BuildRows (some deep)).map Prod.fst
    else some [{ box := child, isBogus := true }]

/-- Written from the spec's words (4.3): the flattened row sequence is the
in-order concatenation of the per-child contributions, so each monument's
rows appear contiguously in place of the monument. -/
def specRows : List Box → Option (List nsGridRow)
  | [] => some []
  | child :: rest =>
    match specRowContrib child, specRows rest with
    | some rows, some more => some (rows ++ more)
    | _, _ => none

/-- Written from the spec's words (4.6): the dirty marks one direct child
causes — a monument receives a forwarded `DirtyRows`; a plain bogus child
is left untouched. -/
def specDirtyContrib (child : Box) : Option (List Nat) :=
  match CheckForScrollFrame child with
  | none => none
  | some deep => if isMonument deep then DirtyRows (some deep) else some []

/-- Written from the spec's words (4.6): the forwarded dirty marks are the
concatenation of the per-child marks. -/
def specDirtyMarks : List Box → Option (List Nat)
  | [] => some []
  | child :: rest =>
    match specDirtyContrib child, specDirtyMarks rest with
    | some marks, some more => some (marks ++ more)
    | _, _ => none

/-- Written from the spec's words (4.2, step 3): the extra columns occupy
the tail indices `[GetColumnCount(axis) - GetExtraColumnCount(axis),
GetColumnCount(axis))` of the grid's column array. -/
def specExtraColumnIndices (g : nsGrid) (isRow : Bool) : List Int :=
  let start := g.columnCount isRow - g.extraColumnCount isRow
  (List.range (g.columnCount isRow - start).toNat).map (fun k => start + Int.ofNat k)

/-- Written from the spec's words (4.2, step 4): fold each extra column's
size of the requested kind, fetched along the opposite axis, into the
baseline on the box's own axis using the aggregation rule. -/
def specFoldExtraColumns (kind : Int → Bool → Int) (g : nsGrid) (isRow : Bool)
    (base : nsSize) : nsSize :=
  (specExtraColumnIndices g isRow).foldl
    (fun acc i => AddWidth acc (kind i (!isRow)) isRow) base

/-- A plain box: no scroll frame, no layout manager, no children. -/
def plainA : Box := .mk 1 none none []

/-- A plain box whose layout manager is not a grid part. -/
def plainB : Box := .mk 2 none (some false) []

/-- A scrollable frame that reports no scrolled inner box. -/
def scrollBad : Box := .mk 3 (some none) none []

/-- A monument (row group) holding two bogus rows. -/
def monLeaf : Box := .mk 4 none (some true) [plainA, plainB]

/-- A scrollable frame wrapping the monument `monLeaf`. -/
def scrollMon : Box := .mk 5 (some (some monLeaf)) none []

/-- A row-group box with one nested monument child and one bogus child. -/
def groupBox : Box := .mk 6 none (some true) [monLeaf, plainA]

/-- A row-group box whose first child is the defective scroll frame. -/
def badGroup : Box := .mk 7 none none [scrollBad, plainA]

/-- A row-group box with a scroll-framed monument child and a bogus child. -/
def dirtyGroup : Box := .mk 8 none none [scrollMon, plainA]

/-- A concrete grid: 5 columns, 2 extra columns, extra preferred sizes 10
(index 3) and 15 (index 4). -/
def gridTwoExtras : nsGrid where
  columnCount := fun _ => 5
  extraColumnCount := fun _ => 2
  prefRowHeight := fun i _ => if i = 3 then 10 else 15
  maxRowHeight := fun _ _ => 0
  minRowHeight := fun _ _ => 0

/-- A finite baseline size that sits 10 below the sentinel on the row axis. -/
def baseNearSentinel : nsSize := { width := 2147483637, height := 0 }

/-! ## Unfolding lemmas for the three traversal loops -/

theorem checkForScrollFrame_of_bad {child : Box} (h : child.scrolled = some none) :
    CheckForScrollFrame child = none := by
  simp [CheckForScrollFrame, h]

theorem countChildren_cons_none {child : Box} (rest : List Box) (r c : Int)
    (hsf : CheckForScrollFrame child = none) :
    countChildren (child :: rest) r c = none := by
  rw [countChildren]
  split
  · rfl
  · rename_i d hd
    rw [hsf] at hd
    exact absurd hd (by simp)

theorem countChildren_cons_mon {child deep : Box} (rest : List Box) (r c : Int)
    (hsf : CheckForScrollFrame child = some deep) (hm : isMonument deep = true) :
    countChildren (child :: rest) r c =
      match countChildren deep.children r c with
      | none => none
      | some (r2, c2) => countChildren rest r2 c2 := by
  rw [countChildren]
  split
  · rename_i hd
    rw [hsf] at hd
    exact absurd hd (by simp)
  · rename_i d hd
    rw [hsf] at hd
    cases hd
    simp [hm]

theorem countChildren_cons_bogus {child deep : Box} (rest : List Box) (r c : Int)
    (hsf : CheckForScrollFrame child = some deep) (hm : isMonument deep = false) :
    countChildren (child :: rest) r c = countChildren rest (r + 1) c := by
  rw [countChildren]
  split
  · rename_i hd
    rw [hsf] at hd
    exact absurd hd (by simp)
  · rename_i d hd
    rw [hsf] at hd
    cases hd
    simp [hm]

theorem buildChildren_cons_none {child : Box} (rest : List Box)
    (hsf : CheckForScrollFrame child = none) :
    buildChildren (child :: rest) = none := by
  rw [buildChildren]
  split
  · rfl
  · rename_i d hd
    rw [hsf] at hd
    exact absurd hd (by simp)

theorem buildChildren_cons_mon {child deep : Box} (rest : List Box)
    (hsf : CheckForScrollFrame child = some deep) (hm : isMonument deep = true) :
    buildChildren (child :: rest) =
      match buildChildren deep.children with
      | none => none
      | some (rows, count) =>
        match buildChildren rest with
        | none => none
        | some (restRows, restCount) => some (rows ++ restRows, count + restCount) := by
  rw [buildChildren]
  split
  · rename_i hd
    rw [hsf] at hd
    exact absurd hd (by simp)
  · rename_i d hd
    rw [hsf] at hd
    cases hd
    simp [hm]

theorem buildChildren_cons_bogus {child deep : Box} (rest : List Box)
    (hsf : CheckForScrollFrame child = some deep) (hm : isMonument deep = false) :
    buildChildren (child :: rest) =
      match buildChildren rest with
      | none => none
      | some (restRows, restCount) =>
        some ({ box := child, isBogus := true } :: restRows, 1 + restCount) := by
  rw [buildChildren]
  split
  · rename_i hd
    rw [hsf] at hd
    exact absurd hd (by simp)
  · rename_i d hd
    rw [hsf] at hd
    cases hd
    simp [hm]

theorem dirtyChildren_cons_none {child : Box} (rest : List Box)
    (hsf : CheckForScrollFrame child = none) :
    dirtyChildren (child :: rest) = none := by
  rw [dirtyChildren]
  split
  · rfl
  · rename_i d hd
    rw [hsf] at hd
    exact absurd hd (by simp)

theorem dirtyChildren_cons_mon {child deep : Box} (rest : List Box)
    (hsf : CheckForScrollFrame child = some deep) (hm : isMonument deep = true) :
    dirtyChildren (child :: rest) =
      match dirtyChildren deep.children with
      | none => none
      | some marks =>
        match dirtyChildren rest with
        | none => none
        | some more => some ((deep.boxId :: marks) ++ more) := by
  rw [dirtyChildren]
  split
  · rename_i hd
    rw [hsf] at hd
    exact absurd hd (by simp)
  · rename_i d hd
    rw [hsf] at hd
    cases hd
    simp [hm]

theorem dirtyChildren_cons_bogus {child deep : Box} (rest : List Box)
    (hsf : CheckForScrollFrame child = some deep) (hm : isMonument deep = false) :
    dirtyChildren (child :: rest) = dirtyChildren rest := by
  rw [dirtyChildren]
  split
  · rename_i hd
    rw [hsf] at hd
    exact absurd hd (by simp)
  · rename_i d hd
    rw [hsf] at hd
    cases hd
    simp [hm]

/-! ## The count pass and the build pass agree -/

theorem countChildren_eq_buildChildren (l : List Box) (r c : Int) :
    countChildren l r c = (buildChildren l).map (fun p => (r + p.2, c)) := by
  match l with
  | [] =>
    simp [countChildren, buildChildren]
  | child :: rest =>
    match hsf : CheckForScrollFrame child with
    | none =>
      rw [countChildren_cons_none rest r c hsf, buildChildren_cons_none rest hsf]
      rfl
    | some deep =>
      match hm : isMonument deep with
      | true =>
        rw [countChildren_cons_mon rest r c hsf hm, buildChildren_cons_mon rest hsf hm]
        have ihdeep := countChildren_eq_buildChildren deep.children r c
        match hbd : buildChildren deep.children with
        | none =>
          rw [hbd] at ihdeep
          simp at ihdeep
          rw [ihdeep]
          rfl
        | some (rows, count) =>
          rw [hbd] at ihdeep
          simp at ihdeep
          rw [ihdeep]
          have ihrest := countChildren_eq_buildChildren rest (r + count) c
          match hbr : buildChildren rest with
          | none =>
            rw [hbr] at ihrest
            simp at ihrest
            simp [ihrest]
          | some (restRows, restCount) =>
            rw [hbr] at ihrest
            simp at ihrest
            simp [ihrest, Int.add_assoc]
      | false =>
        rw [countChildren_cons_bogus rest r c hsf hm, buildChildren_cons_bogus rest hsf hm]
        have ihrest := countChildren_eq_buildChildren rest (r + 1) c
        match hbr : buildChildren rest with
        | none =>
          rw [hbr] at ihrest
          simp at ihrest
          simp [ihrest]
        | some (restRows, restCount) =>
          rw [hbr] at ihrest
          simp at ihrest
          simp [ihrest, Int.add_assoc]
termination_by sizeOf l
decreasing_by
· have h1 : sizeOf deep ≤ sizeOf child := by
    rcases child with ⟨i, s, lay, ch⟩
    rcases s with _ | inner
    · simp [CheckForScrollFrame, Box.scrolled] at hsf
      subst hsf
      exact le_refl _
    · simp [CheckForScrollFrame, Box.scrolled] at hsf
      subst hsf
      simp
      omega
  have h2 : sizeOf deep.children < sizeOf deep := by
    rcases deep with ⟨i, s, lay, ch⟩
    simp [Box.children]
  simp
  omega
· simp
· simp

/-! ## The reported count equals the number of descriptors written -/

theorem buildChildren_count_eq_length (l : List Box) (rows : List nsGridRow)
    (cnt : Int) (hb : buildChildren l = some (rows, cnt)) :
    cnt = (rows.length : Int) := by
  match l with
  | [] =>
    simp [buildChildren] at hb
    obtain ⟨h1, h2⟩ := hb
    subst h1
    simp
    omega
  | child :: rest =>
    match hsf : CheckForScrollFrame child with
    | none =>
      rw [buildChildren_cons_none rest hsf] at hb
      exact absurd hb (by simp)
    | some deep =>
      match hm : isMonument deep with
      | true =>
        rw [buildChildren_cons_mon rest hsf hm] at hb
        match hbd : buildChildren deep.children with
        | none =>
          rw [hbd] at hb
          exact absurd hb (by simp)
        | some (rows1, cnt1) =>
          rw [hbd] at hb
          match hbr : buildChildren rest with
          | none =>
            rw [hbr] at hb
            exact absurd hb (by simp)
          | some (restRows, restCnt) =>
            rw [hbr] at hb
            simp at hb
            obtain ⟨h1, h2⟩ := hb
            have e1 := buildChildren_count_eq_length deep.children rows1 cnt1 hbd
            have e2 := buildChildren_count_eq_length rest restRows restCnt hbr
            subst h1
            simp [← h2, e1, e2]
      | false =>
        rw [buildChildren_cons_bogus rest hsf hm] at hb
        match hbr : buildChildren rest with
        | none =>
          rw [hbr] at hb
          exact absurd hb (by simp)
        | some (restRows, restCnt) =>
          rw [hbr] at hb
          simp at hb
          obtain ⟨h1, h2⟩ := hb
          have e2 := buildChildren_count_eq_length rest restRows restCnt hbr
          subst h1
          simp [← h2, e2]
          omega
termination_by sizeOf l
decreasing_by
· have h1 : sizeOf deep ≤ sizeOf child := by
    rcases child with ⟨i, s, lay, ch⟩
    rcases s with _ | inner
    · simp [CheckForScrollFrame, Box.scrolled] at hsf
      subst hsf
      exact le_refl _
    · simp [CheckForScrollFrame, Box.scrolled] at hsf
      subst hsf
      simp
      omega
  have h2 : sizeOf deep.children < sizeOf deep := by
    rcases deep with ⟨i, s, lay, ch⟩
    simp [Box.children]
  simp
  omega
· simp
· simp

/-! ## The build pass equals the spec-side flattening -/

theorem buildChildren_eq_specRows (l : List Box) :
    buildChildren l = (specRows l).map (fun rows => (rows, (rows.length : Int))) := by
  induction l with
  | nil => simp [buildChildren, specRows]
  | cons child rest ih =>
    match hsf : CheckForScrollFrame child with
    | none =>
      rw [buildChildren_cons_none rest hsf]
      simp [specRows, specRowContrib, hsf]
    | some deep =>
      match hm : isMonument deep with
      | true =>
        rw [buildChildren_cons_mon rest hsf hm]
        match hbd : buildChildren deep.children with
        | none =>
          have hc : specRowContrib child = none := by
            simp [specRowContrib, hsf, hm, BuildRows, hbd]
          simp [specRows, hc]
        | some (rows1, cnt1) =>
          have hc : specRowContrib child = some rows1 := by
            simp [specRowContrib, hsf, hm, BuildRows, hbd]
          match hsr : specRows rest with
          | none =>
            have hbr : buildChildren rest = none := by
              rw [ih, hsr]
              rfl
            rw [hbr]
            simp [specRows, hc, hsr]
          | some more =>
            have hbr : buildChildren rest = some (more, (more.length : Int)) := by
              rw [ih, hsr]
              rfl
            rw [hbr]
            have e1 := buildChildren_count_eq_length deep.children rows1 cnt1 hbd
            simp [specRows, hc, hsr, e1]
      | false =>
        rw [buildChildren_cons_bogus rest hsf hm]
        have hc : specRowContrib child = some [{ box := child, isBogus := true }] := by
          simp [specRowContrib, hsf, hm]
        match hsr : specRows rest with
        | none =>
          have hbr : buildChildren rest = none := by
            rw [ih, hsr]
            rfl
          rw [hbr]
          simp [specRows, hc, hsr]
        | some more =>
          have hbr : buildChildren rest = some (more, (more.length : Int)) := by
            rw [ih, hsr]
            rfl
          rw [hbr]
          simp [specRows, hc, hsr]
          omega

/-! ## The dirty pass equals the spec-side per-child forwarding -/

theorem dirtyChildren_eq_specDirtyMarks (l : List Box) :
    dirtyChildren l = specDirtyMarks l := by
  induction l with
  | nil => simp [dirtyChildren, specDirtyMarks]
  | cons child rest ih =>
    match hsf : CheckForScrollFrame child with
    | none =>
      rw [dirtyChildren_cons_none rest hsf]
      simp [specDirtyMarks, specDirtyContrib, hsf]
    | some deep =>
      match hm : isMonument deep with
      | true =>
        rw [dirtyChildren_cons_mon rest hsf hm]
        have hc : specDirtyContrib child =
            (dirtyChildren deep.children).map (fun marks => deep.boxId :: marks) := by
          simp [specDirtyContrib, hsf, hm, DirtyRows]
        match hdd : dirtyChildren deep.children with
        | none =>
          rw [hdd] at hc
          simp at hc
          simp [specDirtyMarks, hc]
        | some marks =>
          rw [hdd] at hc
          simp at hc
          match hdr : dirtyChildren rest with
          | none =>
            have hsr : specDirtyMarks rest = none := by
              rw [← ih, hdr]
            simp [specDirtyMarks, hc, hsr]
          | some more =>
            have hsr : specDirtyMarks rest = some more := by
              rw [← ih, hdr]
            simp [specDirtyMarks, hc, hsr]
      | false =>
        rw [dirtyChildren_cons_bogus rest hsf hm]
        have hc : specDirtyContrib child = some [] := by
          simp [specDirtyContrib, hsf, hm]
        match hdr : dirtyChildren rest with
        | none =>
          have hsr : specDirtyMarks rest = none := by
            rw [← ih, hdr]
          simp [specDirtyMarks, hc, hsr]
        | some more =>
          have hsr : specDirtyMarks rest = some more := by
            rw [← ih, hdr]
          simp [specDirtyMarks, hc, hsr]

/-! ## A defective scroll-frame child aborts all three traversals -/

theorem traversals_none_of_bad_child (l : List Box)
    (hbad : ∃ child ∈ l, child.scrolled = some none) (r c : Int) :
    countChildren l r c = none ∧ buildChildren l = none ∧ dirtyChildren l = none := by
  induction l generalizing r c with
  | nil => simp at hbad
  | cons child rest ih =>
    rcases hbad with ⟨b, hmem, hbs⟩
    rcases List.mem_cons.mp hmem with hb | hb
    · subst hb
      have hsf := checkForScrollFrame_of_bad hbs
      exact ⟨countChildren_cons_none rest r c hsf, buildChildren_cons_none rest hsf,
        dirtyChildren_cons_none rest hsf⟩
    · have ihr : ∀ r2 c2 : Int, countChildren rest r2 c2 = none ∧
          buildChildren rest = none ∧ dirtyChildren rest = none :=
        fun r2 c2 => ih ⟨b, hb, hbs⟩ r2 c2
      match hsf : CheckForScrollFrame child with
      | none =>
        exact ⟨countChildren_cons_none rest r c hsf, buildChildren_cons_none rest hsf,
          dirtyChildren_cons_none rest hsf⟩
      | some deep =>
        match hm : isMonument deep with
        | true =>
          refine ⟨?_, ?_, ?_⟩
          · rw [countChildren_cons_mon rest r c hsf hm]
            cases hx : countChildren deep.children r c with
            | none => rfl
            | some p =>
              obtain ⟨r2, c2⟩ := p
              exact (ihr r2 c2).1
          · rw [buildChildren_cons_mon rest hsf hm]
            cases hx : buildChildren deep.children with
            | none => rfl
            | some p =>
              obtain ⟨rows, cnt⟩ := p
              simp [(ihr 0 0).2.1]
          · rw [dirtyChildren_cons_mon rest hsf hm]
            cases hx : dirtyChildren deep.children with
            | none => rfl
            | some marks =>
              simp [(ihr 0 0).2.2]
        | false =>
          refine ⟨?_, ?_, ?_⟩
          · rw [countChildren_cons_bogus rest r c hsf hm]
            exact (ihr (r + 1) c).1
          · rw [buildChildren_cons_bogus rest hsf hm]
            simp [(ihr 0 0).2.1]
          · rw [dirtyChildren_cons_bogus rest hsf hm]
            exact (ihr 0 0).2.2

/-! ## Permutation invariance of the dirty-mark set -/

theorem specDirtyMarks_perm {l1 l2 : List Box} (hp : l1.Perm l2) :
    (specDirtyMarks l1 = none ∧ specDirtyMarks l2 = none) ∨
    ∃ m1 m2, specDirtyMarks l1 = some m1 ∧ specDirtyMarks l2 = some m2 ∧
      m1.Perm m2 := by
  induction hp with
  | nil =>
    right
    exact ⟨[], [], rfl, rfl, List.Perm.refl _⟩
  | cons x hp ih =>
    cases hcx : specDirtyContrib x with
    | none =>
      left
      constructor <;> simp [specDirtyMarks, hcx]
    | some cx =>
      rcases ih with ⟨h1, h2⟩ | ⟨m1, m2, h1, h2, hm⟩
      · left
        constructor <;> simp [specDirtyMarks, hcx, h1, h2]
      · right
        refine ⟨cx ++ m1, cx ++ m2, ?_, ?_, hm.append_left cx⟩
        · simp [specDirtyMarks, hcx, h1]
        · simp [specDirtyMarks, hcx, h2]
  | swap x y l =>
    cases hcx : specDirtyContrib x with
    | none =>
      left
      constructor <;> simp [specDirtyMarks, hcx]
    | some cx =>
      cases hcy : specDirtyContrib y with
      | none =>
        left
        constructor <;> simp [specDirtyMarks, hcx, hcy]
      | some cy =>
        cases hl : specDirtyMarks l with
        | none =>
          left
          constructor <;> simp [specDirtyMarks, hcx, hcy, hl]
        | some m =>
          right
          refine ⟨cy ++ (cx ++ m), cx ++ (cy ++ m), ?_, ?_, ?_⟩
          · simp [specDirtyMarks, hcx, hcy, hl]
          · simp [specDirtyMarks, hcx, hcy, hl]
          · have h := (@List.perm_append_comm _ cy cx).append_right m
            simpa [List.append_assoc] using h
  | trans hp1 hp2 ih1 ih2 =>
    rcases ih1 with ⟨a1, a2⟩ | ⟨m1, m2, a1, a2, am⟩
    · rcases ih2 with ⟨b1, b2⟩ | ⟨m2', m3, b1, b2, bm⟩
      · left
        exact ⟨a1, b2⟩
      · rw [a2] at b1
        exact absurd b1 (by simp)
    · rcases ih2 with ⟨b1, b2⟩ | ⟨m2', m3, b1, b2, bm⟩
      · rw [a2] at b1
        exact absurd b1 (by simp)
      · right
        rw [a2] at b1
        injection b1 with e
        subst e
        exact ⟨m1, m3, a1, b2, am.trans bm⟩

/-! ## AddWidth and the sentinel -/

theorem GET_WIDTH_addWidth (acc : nsSize) (s : Int) (isRow : Bool) :
    GET_WIDTH (AddWidth acc s isRow) isRow =
      if GET_WIDTH acc isRow = NS_INTRINSICSIZE ∨ s = NS_INTRINSICSIZE then
        NS_INTRINSICSIZE
      else GET_WIDTH acc isRow + s := by
  unfold AddWidth
  split
  · rename_i h
    cases isRow <;> simp [GET_WIDTH, setWidth] at h ⊢
  · rename_i h
    cases isRow <;> simp [GET_WIDTH, setWidth] at h ⊢

theorem foldl_addWidth_absorb (sizes : List Int) (base : nsSize) (isRow : Bool)
    (h : GET_WIDTH base isRow = NS_INTRINSICSIZE) :
    GET_WIDTH (sizes.foldl (fun a s2 => AddWidth a s2 isRow) base) isRow =
      NS_INTRINSICSIZE := by
  induction sizes generalizing base with
  | nil => simpa using h
  | cons x rest ih =>
    simp only [List.foldl_cons]
    apply ih
    rw [GET_WIDTH_addWidth]
    simp [h]

theorem foldl_addWidth_sentinel_mem (sizes : List Int) (base : nsSize) (isRow : Bool)
    (h : NS_INTRINSICSIZE ∈ sizes) :
    GET_WIDTH (sizes.foldl (fun a s2 => AddWidth a s2 isRow) base) isRow =
      NS_INTRINSICSIZE := by
  induction sizes generalizing base with
  | nil => simp at h
  | cons x rest ih =>
    simp only [List.foldl_cons]
    rcases List.mem_cons.mp h with hx | hx
    · apply foldl_addWidth_absorb
      rw [GET_WIDTH_addWidth]
      simp [← hx]
    · exact ih (AddWidth base x isRow) hx

/-! ## The three size queries fold exactly the extra-column tail -/

theorem GetPrefSize_eq_specFold (rv : Int) (g : nsGrid) (isRow : Bool) (base : nsSize) :
    GetPrefSize rv (some g) isRow base =
      (rv, specFoldExtraColumns (fun i ax => g.prefRowHeight i ax) g isRow base) := by
  simp only [GetPrefSize, specFoldExtraColumns, specExtraColumnIndices]
  rw [List.foldl_map]
  have harg : g.columnCount isRow -
      (g.columnCount isRow - g.extraColumnCount isRow) = g.extraColumnCount isRow := by
    ring
  rw [harg]
  have hfun : (fun (acc : nsSize) (k : Nat) => AddWidth acc
        (g.prefRowHeight ((g.columnCount isRow - g.extraColumnCount isRow) + Int.ofNat k)
          (!isRow)) isRow) =
      (fun (acc : nsSize) (i : Nat) => AddWidth acc
        (g.prefRowHeight (Int.ofNat i + (g.columnCount isRow - g.extraColumnCount isRow))
          (!isRow)) isRow) := by
    funext acc k
    rw [Int.add_comm]
  rw [hfun]

theorem GetMaxSize_eq_specFold (rv : Int) (g : nsGrid) (isRow : Bool) (base : nsSize) :
    GetMaxSize rv (some g) isRow base =
      (rv, specFoldExtraColumns (fun i ax => g.maxRowHeight i ax) g isRow base) := by
  simp only [GetMaxSize, specFoldExtraColumns, specExtraColumnIndices]
  rw [List.foldl_map]
  have harg : g.columnCount isRow -
      (g.columnCount isRow - g.extraColumnCount isRow) = g.extraColumnCount isRow := by
    ring
  rw [harg]
  have hfun : (fun (acc : nsSize) (k : Nat) => AddWidth acc
        (g.maxRowHeight ((g.columnCount isRow - g.extraColumnCount isRow) + Int.ofNat k)
          (!isRow)) isRow) =
      (fun (acc : nsSize) (i : Nat) => AddWidth acc
        (g.maxRowHeight (Int.ofNat i + (g.columnCount isRow - g.extraColumnCount isRow))
          (!isRow)) isRow) := by
    funext acc k
    rw [Int.add_comm]
  rw [hfun]

theorem GetMinSize_eq_specFold (rv : Int) (g : nsGrid) (isRow : Bool) (base : nsSize) :
    GetMinSize rv (some g) isRow base =
      (rv, specFoldExtraColumns (fun i ax => g.minRowHeight i ax) g isRow base) := by
  simp only [GetMinSize, specFoldExtraColumns, specExtraColumnIndices]
  rw [List.foldl_map]
  have harg : g.columnCount isRow -
      (g.columnCount isRow - g.extraColumnCount isRow) = g.extraColumnCount isRow := by
    ring
  rw [harg]
  have hfun : (fun (acc : nsSize) (k : Nat) => AddWidth acc
        (g.minRowHeight ((g.columnCount isRow - g.extraColumnCount isRow) + Int.ofNat k)
          (!isRow)) isRow) =
      (fun (acc : nsSize) (i : Nat) => AddWidth acc
        (g.minRowHeight (Int.ofNat i + (g.columnCount isRow - g.extraColumnCount isRow))
          (!isRow)) isRow) := by
    funext acc k
    rw [Int.add_comm]
  rw [hfun]

/-! ## Claim theorems -/

/-- C1: for every box tree, running `CountRowsColumns` with the row counter
initialized to zero yields a rowCount equal to the `countWritten` reported
by `BuildRows` on the same box (whenever either traversal completes, the
other does too, with agreeing counts), and the reported count equals the
number of descriptors written, so a buffer sized to the reported rowCount
is sufficient: the two operations visit children in the same order and
apply the same scroll-frame-unwrap and monument/bogus classification. -/
theorem claim_C1_count_build_consistency (box : Box) (c0 : Int) :
    (CountRowsColumns (some box) 0 c0).map Prod.fst =
      (BuildRows (some box)).map Prod.snd ∧
    (BuildRows (some box)).map (fun p => (p.1.length : Int)) =
      (BuildRows (some box)).map Prod.snd := by
  constructor
  · show (countChildren box.children 0 c0).map Prod.fst =
      (buildChildren box.children).map Prod.snd
    rw [countChildren_eq_buildChildren]
    cases buildChildren box.children with
    | none => rfl
    | some p => simp
  · show (buildChildren box.children).map (fun p => (p.1.length : Int)) =
      (buildChildren box.children).map Prod.snd
    cases hb : buildChildren box.children with
    | none => rfl
    | some p =>
      obtain ⟨rows, cnt⟩ := p
      have hlen := buildChildren_count_eq_length box.children rows cnt hb
      simp [hlen]

/-- C10: `CountRowsColumns` treats its out-parameters as running
accumulators: the final rowCount is the initial rowCount plus the number of
logical rows found from zero, and the computed column count comes back
exactly as supplied (this layer never writes it; in this model the nested
monuments are row groups, which do not write it either). -/
theorem claim_C10_running_accumulators (box : Box) (r0 c0 : Int) :
    CountRowsColumns (some box) r0 c0 =
      (CountRowsColumns (some box) 0 c0).map (fun p => (r0 + p.1, c0)) := by
  show countChildren box.children r0 c0 =
    (countChildren box.children 0 c0).map (fun p => (r0 + p.1, c0))
  rw [countChildren_eq_buildChildren, countChildren_eq_buildChildren]
  cases buildChildren box.children with
  | none => rfl
  | some p => simp

/-- C5: `BuildRows` writes descriptors in child traversal order — each
non-monument child contributes exactly one descriptor referencing the
original (non-unwrapped) child marked generated/bogus, each monument's
recursively built rows appear contiguously in its place, and the reported
count is the length of the written sequence. -/
theorem claim_C5_build_order (box : Box) :
    BuildRows (some box) =
      (specRows box.children).map (fun rows => (rows, (rows.length : Int))) := by
  show buildChildren box.children = _
  exact buildChildren_eq_specRows box.children

/-- C9: with a null box argument the traversals are harmless no-ops:
`DirtyRows` marks nothing, `CountRowsColumns` leaves both caller-supplied
counters unchanged, and `BuildRows` reports zero and touches no buffer
slot. -/
theorem claim_C9_null_box (r c : Int) :
    DirtyRows none = some [] ∧ CountRowsColumns none r c = some (r, c) ∧
    BuildRows none = some ([], 0) :=
  ⟨rfl, rfl, rfl⟩

/-- C4: for a box with no associated grid, each of the three size queries
returns exactly the base single-row delegate's result — status and size
unchanged, no extra-column contribution folded in. -/
theorem claim_C4_no_grid_passthrough (rv : Int) (isRow : Bool) (base : nsSize) :
    GetPrefSize rv none isRow base = (rv, base) ∧
    GetMaxSize rv none isRow base = (rv, base) ∧
    GetMinSize rv none isRow base = (rv, base) :=
  ⟨rfl, rfl, rfl⟩

/-- C8: `ChildAddedOrRemoved` notifies the resolved grid of a row/column
change at the box's index with the box's orientation when a grid is
present, performs no notification when none is, and returns `NS_OK` in
both cases. -/
theorem claim_C8_child_added_or_removed (g : nsGrid) (index : Int) (isRow : Bool) :
    ChildAddedOrRemoved (some g) index isRow =
      (some { index := index, isRow := isRow }, NS_OK) ∧
    ChildAddedOrRemoved none index isRow = (none, NS_OK) :=
  ⟨rfl, rfl⟩

/-- C3: `AddWidth` on one dimension yields the unconstrained/intrinsic
sentinel whenever the accumulator or the contribution equals the sentinel
and the sum otherwise; consequently a fold over any list of contributed
sizes containing the sentinel yields the sentinel on that axis. -/
theorem claim_C3_sentinel_dominance (acc : nsSize) (s : Int) (isRow : Bool)
    (sizes : List Int) (base : nsSize) (hmem : NS_INTRINSICSIZE ∈ sizes) :
    (GET_WIDTH acc isRow = NS_INTRINSICSIZE ∨ s = NS_INTRINSICSIZE →
      GET_WIDTH (AddWidth acc s isRow) isRow = NS_INTRINSICSIZE) ∧
    (GET_WIDTH acc isRow ≠ NS_INTRINSICSIZE → s ≠ NS_INTRINSICSIZE →
      GET_WIDTH (AddWidth acc s isRow) isRow = GET_WIDTH acc isRow + s) ∧
    GET_WIDTH (sizes.foldl (fun a s2 => AddWidth a s2 isRow) base) isRow =
      NS_INTRINSICSIZE := by
  refine ⟨?_, ?_, foldl_addWidth_sentinel_mem sizes base isRow hmem⟩
  · intro h
    rw [GET_WIDTH_addWidth]
    simp [h]
  · intro h1 h2
    rw [GET_WIDTH_addWidth]
    simp [h1, h2]

/-- C3 witness: a concrete finite step adds, and a concrete fold whose
middle contribution is the sentinel aggregates to the sentinel. -/
theorem claim_C3_witness :
    GET_WIDTH (AddWidth { width := 5, height := 7 } 3 true) true = 5 + 3 ∧
    GET_WIDTH ([(1 : Int), NS_INTRINSICSIZE, 2].foldl
      (fun a s2 => AddWidth a s2 true) { width := 0, height := 0 }) true =
      NS_INTRINSICSIZE :=
  have h := claim_C3_sentinel_dominance { width := 5, height := 7 } 3 true
    [(1 : Int), NS_INTRINSICSIZE, 2] { width := 0, height := 0 } (by decide)
  ⟨h.2.1 (by decide) (by decide), h.2.2⟩

/-- C6 (amended): when some direct child is a scrollable frame reporting no
scrolled inner box, the inconsistency is reported only by a diagnostic
assertion, but each traversal then dereferences the null unwrapped child:
the null result is not tolerated, and the traversal produces no result
instead of continuing over the remaining children. -/
theorem claim_C6_null_scrolled_aborts (box : Box) (r c : Int)
    (hbad : ∃ child ∈ box.children, child.scrolled = some none) :
    CountRowsColumns (some box) r c = none ∧ BuildRows (some box) = none ∧
    DirtyRows (some box) = none := by
  obtain ⟨h1, h2, h3⟩ := traversals_none_of_bad_child box.children hbad r c
  refine ⟨h1, h2, ?_⟩
  show (dirtyChildren box.children).map _ = none
  rw [h3]
  rfl

/-- C6 witness: the amended statement applied to the concrete `badGroup`. -/
theorem claim_C6_witness :
    CountRowsColumns (some badGroup) 5 7 = none :=
  (claim_C6_null_scrolled_aborts badGroup 5 7
    ⟨scrollBad, by simp [badGroup, Box.children], rfl⟩).1

/-- C6 counterexample: on `badGroup`, whose first child is a scrollable
frame with no scrolled box, none of the three traversals continues over the
remaining children — each produces no result (the modelled null
dereference), refuting the claim that the null unwrapped result is
tolerated and traversal continues without failure (which would give
`CountRowsColumns` the result `some (1, 0)` for the one remaining bogus
child). -/
theorem claim_C6_counterexample :
    scrollBad.scrolled = some none ∧
    scrollBad ∈ badGroup.children ∧
    CountRowsColumns (some badGroup) 0 0 = none ∧
    BuildRows (some badGroup) = none ∧
    DirtyRows (some badGroup) = none ∧
    CountRowsColumns (some badGroup) 0 0 ≠ some (1, 0) := by
  have hmem : scrollBad ∈ badGroup.children := by
    simp [badGroup, Box.children]
  have h := traversals_none_of_bad_child badGroup.children
    ⟨scrollBad, hmem, rfl⟩ 0 0
  refine ⟨rfl, hmem, h.1, h.2.1, ?_, ?_⟩
  · show (dirtyChildren badGroup.children).map _ = none
    rw [h.2.2]
    rfl
  · show countChildren badGroup.children 0 0 ≠ some (1, 0)
    rw [h.1]
    simp

/-- C7: `DirtyRows` marks the box itself dirty first and then forwards
`DirtyRows` to exactly those direct children that are monuments after
scroll-frame unwrapping (a plain bogus child contributes no marks — its own
dirty flag is left untouched), and the resulting collection of dirtied
boxes is invariant under permuting the traversal order of the children. -/
theorem claim_C7_dirty_propagation (box : Box) (l2 : List Box)
    (hperm : box.children.Perm l2) :
    DirtyRows (some box) =
      (specDirtyMarks box.children).map (fun marks => box.boxId :: marks) ∧
    ((dirtyChildren box.children = none ∧ dirtyChildren l2 = none) ∨
      ∃ m1 m2, dirtyChildren box.children = some m1 ∧ dirtyChildren l2 = some m2 ∧
        m1.Perm m2) := by
  constructor
  · show (dirtyChildren box.children).map _ = _
    rw [dirtyChildren_eq_specDirtyMarks]
  · rw [dirtyChildren_eq_specDirtyMarks, dirtyChildren_eq_specDirtyMarks]
    exact specDirtyMarks_perm hperm

/-- C7 witness: the theorem applied to `dirtyGroup` (a scroll-framed
monument child and a bogus child) with its children swapped. -/
theorem claim_C7_witness :
    DirtyRows (some dirtyGroup) =
      (specDirtyMarks dirtyGroup.children).map
        (fun marks => dirtyGroup.boxId :: marks) :=
  (claim_C7_dirty_propagation dirtyGroup [plainA, scrollMon]
    (List.Perm.swap plainA scrollMon [])).1

/-- C2 (amended): with a grid, each size query folds into the component on
the box's own axis the corresponding kind of size of each extra column —
the tail indices `[columnCount − extraColumnCount, columnCount)` queried
along the opposite axis — via the aggregation rule; in particular, with
`extraColumnCount = 2` and extra-column preferred sizes 10 and 15,
`GetPrefSize` adds 25 to the base delegate's finite result on that axis
provided the intermediate accumulated value `b + 10` does not itself land
exactly on the sentinel value (in that case the aggregation saturates to
the sentinel instead). -/
theorem claim_C2_extra_column_sizes (g : nsGrid) (isRow : Bool) (base : nsSize)
    (rv b : Int)
    (hec : g.extraColumnCount isRow = 2)
    (h10 : g.prefRowHeight (g.columnCount isRow - 2) (!isRow) = 10)
    (h15 : g.prefRowHeight (g.columnCount isRow - 2 + 1) (!isRow) = 15)
    (hb : GET_WIDTH base isRow = b)
    (hbfin : b ≠ NS_INTRINSICSIZE)
    (hmid : b + 10 ≠ NS_INTRINSICSIZE) :
    GetPrefSize rv (some g) isRow base =
      (rv, specFoldExtraColumns (fun i ax => g.prefRowHeight i ax) g isRow base) ∧
    GetMaxSize rv (some g) isRow base =
      (rv, specFoldExtraColumns (fun i ax => g.maxRowHeight i ax) g isRow base) ∧
    GetMinSize rv (some g) isRow base =
      (rv, specFoldExtraColumns (fun i ax => g.minRowHeight i ax) g isRow base) ∧
    GET_WIDTH (GetPrefSize rv (some g) isRow base).2 isRow = b + 25 := by
  refine ⟨GetPrefSize_eq_specFold rv g isRow base,
    GetMaxSize_eq_specFold rv g isRow base,
    GetMinSize_eq_specFold rv g isRow base, ?_⟩
  simp only [GetPrefSize, hec]
  rw [show ((2 : Int).toNat) = 2 from rfl]
  rw [show List.range 2 = [0, 1] from rfl]
  simp only [List.foldl_cons, List.foldl_nil]
  rw [show (Int.ofNat 0) = 0 from rfl, show (Int.ofNat 1) = 1 from rfl]
  rw [zero_add, Int.add_comm 1 (g.columnCount isRow - 2)]
  rw [h10, h15]
  rw [GET_WIDTH_addWidth, GET_WIDTH_addWidth]
  rw [hb]
  have t10 : (10 : Int) ≠ NS_INTRINSICSIZE := by decide
  have t15 : (15 : Int) ≠ NS_INTRINSICSIZE := by decide
  simp [hbfin, hmid, t10, t15]
  omega

/-- C2 witness: the amended theorem at a concrete grid and a small finite
baseline (`width = 100`), giving `100 + 25` on the row axis. -/
theorem claim_C2_witness :
    GET_WIDTH (GetPrefSize 7 (some gridTwoExtras) true
      { width := 100, height := 0 }).2 true = 100 + 25 :=
  (claim_C2_extra_column_sizes gridTwoExtras true { width := 100, height := 0 }
    7 100 (by decide) (by decide) (by decide) rfl (by decide) (by decide)).2.2.2

/-- C2 counterexample: the same concrete grid (extra columns with preferred
sizes 10 and 15) applied to the finite baseline `width = 2147483637`
(`NS_INTRINSICSIZE - 10`): the first aggregation step lands exactly on the
sentinel value, the second saturates, and `GetPrefSize` returns the
sentinel rather than baseline + 25 — refuting the claim as stated for this
finite base result. -/
theorem claim_C2_counterexample :
    gridTwoExtras.extraColumnCount true = 2 ∧
    gridTwoExtras.prefRowHeight (gridTwoExtras.columnCount true - 2) false = 10 ∧
    gridTwoExtras.prefRowHeight (gridTwoExtras.columnCount true - 2 + 1) false = 15 ∧
    GET_WIDTH baseNearSentinel true ≠ NS_INTRINSICSIZE ∧
    GET_WIDTH (GetPrefSize 0 (some gridTwoExtras) true baseNearSentinel).2 true =
      NS_INTRINSICSIZE ∧
    GET_WIDTH (GetPrefSize 0 (some gridTwoExtras) true baseNearSentinel).2 true ≠
      GET_WIDTH baseNearSentinel true + 25 := by
  refine ⟨by decide, by decide, by decide, by decide, ?_, ?_⟩ <;> decide
